import Mathlib

/-!
Shallow embedding of `psychopy/tools/viewtools.py` (view/projection matrix
tools), together with theorems settling the claims about it.  Python/numpy
floating-point scalars are idealised as elements of a field (instantiated
at `ℝ`, or at `ℚ` for concrete evaluation); numpy `(4,4)` arrays are
embedded as the 16-field structure `Mat4` whose field `mIJ` is the array
entry `[I, J]` (row `I`, column `J`), matching the source's index order.
Vectors multiply matrices from the left (`numpy.matmul(v, M)` on a
length-4 row vector), as the source's conventions require.  The functions
that normalise vectors need a square root and are therefore stated over
`ℝ` with `Real.sqrt`.
-/

/-- A 3-component vector, the embedding of a length-3 numpy array. -/
structure Vec3 (K : Type) where
  x : K
  y : K
  z : K

/-- A 4-component row vector, the embedding of a length-4 numpy array. -/
structure Vec4 (K : Type) where
  x : K
  y : K
  z : K
  w : K

/-- A 4x4 matrix, the embedding of a numpy `(4, 4)` array; `mIJ` is entry
`[I, J]` (row `I`, column `J`). -/
structure Mat4 (K : Type) where
  m00 : K
  m01 : K
  m02 : K
  m03 : K
  m10 : K
  m11 : K
  m12 : K
  m13 : K
  m20 : K
  m21 : K
  m22 : K
  m23 : K
  m30 : K
  m31 : K
  m32 : K
  m33 : K

/-- The `Frustum` namedtuple of the source:
`['left', 'right', 'bottom', 'top', 'nearVal', 'farVal']`. -/
structure Frustum (K : Type) where
  left : K
  right : K
  bottom : K
  top : K
  nearVal : K
  farVal : K

section FieldOps

variable {K : Type} [Field K]

/-- Componentwise difference of 3-vectors (`a - b` on numpy arrays). -/
def sub3 (a b : Vec3 K) : Vec3 K :=
  ⟨a.x - b.x, a.y - b.y, a.z - b.z⟩

/-- Dot product of 3-vectors (`numpy.dot`). -/
def dot3 (a b : Vec3 K) : K :=
  a.x * b.x + a.y * b.y + a.z * b.z

/-- Cross product of 3-vectors (`numpy.cross`). -/
def cross3 (a b : Vec3 K) : Vec3 K :=
  ⟨a.y * b.z - a.z * b.y, a.z * b.x - a.x * b.z, a.x * b.y - a.y * b.x⟩

/-- Row-vector pre-multiplication `numpy.matmul(v, M)` for a length-4 row
vector `v`: component `j` of the result is `∑ i, v i * M[i, j]`. -/
def vecMat (v : Vec4 K) (m : Mat4 K) : Vec4 K :=
  ⟨v.x * m.m00 + v.y * m.m10 + v.z * m.m20 + v.w * m.m30,
   v.x * m.m01 + v.y * m.m11 + v.z * m.m21 + v.w * m.m31,
   v.x * m.m02 + v.y * m.m12 + v.z * m.m22 + v.w * m.m32,
   v.x * m.m03 + v.y * m.m13 + v.z * m.m23 + v.w * m.m33⟩

/-- Matrix product `numpy.matmul(a, b)` of 4x4 matrices. -/
def matMul (a b : Mat4 K) : Mat4 K :=
  ⟨a.m00 * b.m00 + a.m01 * b.m10 + a.m02 * b.m20 + a.m03 * b.m30,
   a.m00 * b.m01 + a.m01 * b.m11 + a.m02 * b.m21 + a.m03 * b.m31,
   a.m00 * b.m02 + a.m01 * b.m12 + a.m02 * b.m22 + a.m03 * b.m32,
   a.m00 * b.m03 + a.m01 * b.m13 + a.m02 * b.m23 + a.m03 * b.m33,
   a.m10 * b.m00 + a.m11 * b.m10 + a.m12 * b.m20 + a.m13 * b.m30,
   a.m10 * b.m01 + a.m11 * b.m11 + a.m12 * b.m21 + a.m13 * b.m31,
   a.m10 * b.m02 + a.m11 * b.m12 + a.m12 * b.m22 + a.m13 * b.m32,
   a.m10 * b.m03 + a.m11 * b.m13 + a.m12 * b.m23 + a.m13 * b.m33,
   a.m20 * b.m00 + a.m21 * b.m10 + a.m22 * b.m20 + a.m23 * b.m30,
   a.m20 * b.m01 + a.m21 * b.m11 + a.m22 * b.m21 + a.m23 * b.m31,
   a.m20 * b.m02 + a.m21 * b.m12 + a.m22 * b.m22 + a.m23 * b.m32,
   a.m20 * b.m03 + a.m21 * b.m13 + a.m22 * b.m23 + a.m23 * b.m33,
   a.m30 * b.m00 + a.m31 * b.m10 + a.m32 * b.m20 + a.m33 * b.m30,
   a.m30 * b.m01 + a.m31 * b.m11 + a.m32 * b.m21 + a.m33 * b.m31,
   a.m30 * b.m02 + a.m31 * b.m12 + a.m32 * b.m22 + a.m33 * b.m32,
   a.m30 * b.m03 + a.m31 * b.m13 + a.m32 * b.m23 + a.m33 * b.m33⟩

/-- Homogeneous divide: each clip coordinate divided by the clip `w`. -/
def homogDiv (v : Vec4 K) : Vec4 K :=
  ⟨v.x / v.w, v.y / v.w, v.z / v.w, v.w / v.w⟩

/-- Embedding of `computeFrustum(scrWidth, scrAspect, scrDist,
convergeOffset, eyeOffset, nearClip, farClip)` (viewtools.py lines 70-78):
`d = scrWidth * (convergeOffset + scrDist)`,
`ratio = nearClip / (convergeOffset + scrDist)`,
`right = (d - eyeOffset) * ratio`, `left = (d + eyeOffset) * -ratio`,
`top = (scrWidth / scrAspect) * nearClip`, `bottom = -top`. -/
def computeFrustum (scrWidth scrAspect scrDist convergeOffset eyeOffset
    nearClip farClip : K) : Frustum K :=
  let d := scrWidth * (convergeOffset + scrDist)
  let nearOverTotal := nearClip / (convergeOffset + scrDist)
  let top := (scrWidth / scrAspect) * nearClip
  { left := (d + eyeOffset) * (-nearOverTotal)
    right := (d - eyeOffset) * nearOverTotal
    bottom := -top
    top := top
    nearVal := nearClip
    farVal := farClip }

/-- Embedding of `orthoProjectionMatrix(left, right, bottom, top, near,
far)` (viewtools.py lines 189-198).  The source fills a zero 4x4 array,
setting `[0,0]=2/(r-l)`, `[1,1]=2/(t-b)`, `[2,2]=-2/(f-n)`,
`[3,0]=(r+l)/(r-l)`, `[3,1]=(t+b)/(t-b)`, `[3,2]=(f+n)/(f-n)`, `[3,3]=1`;
all other entries stay `0`. -/
def orthoProjectionMatrix (left right bottom top near far : K) : Mat4 K :=
  { m00 := 2 / (right - left), m01 := 0, m02 := 0, m03 := 0
    m10 := 0, m11 := 2 / (top - bottom), m12 := 0, m13 := 0
    m20 := 0, m21 := 0, m22 := -2 / (far - near), m23 := 0
    m30 := (right + left) / (right - left)
    m31 := (top + bottom) / (top - bottom)
    m32 := (far + near) / (far - near)
    m33 := 1 }

/-- Embedding of `perspectiveProjectionMatrix(left, right, bottom, top,
near, far)` (viewtools.py lines 226-235).  The source fills a zero 4x4
array, setting `[0,0]=2n/(r-l)`, `[1,1]=2n/(t-b)`, `[2,0]=(r+l)/(r-l)`,
`[2,1]=(t+b)/(t-b)`, `[2,2]=-(f+n)/(f-n)`, `[2,3]=-1`,
`[3,2]=-(2*f*n)/(f-n)`; all other entries stay `0`. -/
def perspectiveProjectionMatrix (left right bottom top near far : K) :
    Mat4 K :=
  { m00 := (2 * near) / (right - left), m01 := 0, m02 := 0, m03 := 0
    m10 := 0, m11 := (2 * near) / (top - bottom), m12 := 0, m13 := 0
    m20 := (right + left) / (right - left)
    m21 := (top + bottom) / (top - bottom)
    m22 := -(far + near) / (far - near)
    m23 := -1
    m30 := 0, m31 := 0, m32 := -(2 * far * near) / (far - near), m33 := 0 }

end FieldOps

/-- Euclidean norm of a 3-vector (`numpy.linalg.norm`). -/
noncomputable def norm3 (v : Vec3 ℝ) : ℝ :=
  Real.sqrt (dot3 v v)

/-- Division of a 3-vector by its norm (`v /= numpy.linalg.norm(v)`). -/
noncomputable def normalize3 (v : Vec3 ℝ) : Vec3 ℝ :=
  ⟨v.x / norm3 v, v.y / norm3 v, v.z / norm3 v⟩

/-- The frustum bounds derived inside `generalPerspectiveProjection`
(viewtools.py lines 126-144): screen-plane basis `vr`, `vu`, `vn` by
normalised differences and cross product, eye-to-corner vectors `va`,
`vb`, `vc`, `dist = -dot(va, vn)`, `nearOverDist = nearClip / dist`, and
the four off-axis bounds scaled by `nearOverDist`. -/
noncomputable def generalPerspectiveFrustum (posBottomLeft posBottomRight
    posTopLeft eyePos : Vec3 ℝ) (nearClip farClip : ℝ) : Frustum ℝ :=
  let vr := normalize3 (sub3 posBottomRight posBottomLeft)
  let vu := normalize3 (sub3 posTopLeft posBottomLeft)
  let vn := normalize3 (cross3 vr vu)
  let va := sub3 posBottomLeft eyePos
  let vb := sub3 posBottomRight eyePos
  let vc := sub3 posTopLeft eyePos
  let dist := -(dot3 va vn)
  let nearOverDist := nearClip / dist
  { left := dot3 vr va * nearOverDist
    right := dot3 vr vb * nearOverDist
    bottom := dot3 vu va * nearOverDist
    top := dot3 vu vc * nearOverDist
    nearVal := nearClip
    farVal := farClip }

/-- Embedding of `generalPerspectiveProjection(posBottomLeft,
posBottomRight, posTopLeft, eyePos, nearClip, farClip)` (viewtools.py
lines 120-161): the projection matrix built from the derived off-axis
frustum bounds, and the view matrix `matmul(transMat, rotMat)` where
`rotMat` has columns `vr`, `vu`, `vn` and `transMat` is the identity with
row 3 holding `-eyePos`. -/
noncomputable def generalPerspectiveProjection (posBottomLeft
    posBottomRight posTopLeft eyePos : Vec3 ℝ) (nearClip farClip : ℝ) :
    Mat4 ℝ × Mat4 ℝ :=
  let fr := generalPerspectiveFrustum posBottomLeft posBottomRight
    posTopLeft eyePos nearClip farClip
  let projMat := perspectiveProjectionMatrix fr.left fr.right fr.bottom
    fr.top nearClip farClip
  let vr := normalize3 (sub3 posBottomRight posBottomLeft)
  let vu := normalize3 (sub3 posTopLeft posBottomLeft)
  let vn := normalize3 (cross3 vr vu)
  let rotMat : Mat4 ℝ :=
    ⟨vr.x, vu.x, vn.x, 0,
     vr.y, vu.y, vn.y, 0,
     vr.z, vu.z, vn.z, 0,
     0, 0, 0, 1⟩
  let transMat : Mat4 ℝ :=
    ⟨1, 0, 0, 0,
     0, 1, 0, 0,
     0, 0, 1, 0,
     -eyePos.x, -eyePos.y, -eyePos.z, 1⟩
  (projMat, matMul transMat rotMat)

/-- Embedding of `lookAt(eyePos, centerPos, upVec)` (viewtools.py lines
261-282): `f` is the normalised view direction, `upVec` is normalised in
place, `s = cross(f, upVec)`, `u = cross(s / norm(s), f)`; `rotMat` has
columns `s`, `u`, `-f` (note the source places the unnormalised `s` in
the matrix), and the result is `matmul(transMat, rotMat)` with `transMat`
the identity carrying `-eyePos` in row 3. -/
noncomputable def lookAt (eyePos centerPos upVec : Vec3 ℝ) : Mat4 ℝ :=
  let f := normalize3 (sub3 centerPos eyePos)
  let upn := normalize3 upVec
  let s := cross3 f upn
  let u := cross3 (normalize3 s) f
  let rotMat : Mat4 ℝ :=
    ⟨s.x, u.x, -f.x, 0,
     s.y, u.y, -f.y, 0,
     s.z, u.z, -f.z, 0,
     0, 0, 0, 1⟩
  let transMat : Mat4 ℝ :=
    ⟨1, 0, 0, 0,
     0, 1, 0, 0,
     0, 0, 1, 0,
     -eyePos.x, -eyePos.y, -eyePos.z, 1⟩
  matMul transMat rotMat

/-- C1: for all frustum scalars `l`, `r`, `b`, `t`, `n`, `f` with `r ≠ l`,
`t ≠ b`, `f ≠ n` (and `n ≠ 0`, needed for the homogeneous divide by the
clip `w = n` to be meaningful), `perspectiveProjectionMatrix` applied to a
near-plane corner by row-vector pre-multiplication followed by the
homogeneous divide maps `(l, b, -n, 1)` to `(-1, -1, -1, 1)` and
`(r, t, -n, 1)` to `(1, 1, -1, 1)`. -/
theorem perspective_maps_near_corners {K : Type} [Field K]
    (l r b t n f : K) (hrl : r ≠ l) (htb : t ≠ b) (hfn : f ≠ n)
    (hn : n ≠ 0) :
    homogDiv (vecMat ⟨l, b, -n, 1⟩
        (perspectiveProjectionMatrix l r b t n f)) = ⟨-1, -1, -1, 1⟩ ∧
    homogDiv (vecMat ⟨r, t, -n, 1⟩
        (perspectiveProjectionMatrix l r b t n f)) = ⟨1, 1, -1, 1⟩ := by
  have hrl' : r - l ≠ 0 := sub_ne_zero.mpr hrl
  have htb' : t - b ≠ 0 := sub_ne_zero.mpr htb
  have hfn' : f - n ≠ 0 := sub_ne_zero.mpr hfn
  constructor <;>
  · simp only [homogDiv, vecMat, perspectiveProjectionMatrix,
      Vec4.mk.injEq]
    refine ⟨?_, ?_, ?_, ?_⟩ <;>
    · rw [div_eq_iff (by simpa using hn)]
      try field_simp
      try ring

/-- C1 witness: the spec's concrete instance,
`perspectiveProjectionMatrix(-1, 1, -1, 1, 1, 10)` maps `(-1, -1, -1, 1)`
to `(-1, -1, -1, 1)` after the divide (evaluated over `ℚ`). -/
theorem perspective_maps_near_corners_witness :
    ((1 : ℚ) ≠ -1) ∧ ((1 : ℚ) ≠ -1) ∧ ((10 : ℚ) ≠ 1) ∧ ((1 : ℚ) ≠ 0) ∧
    homogDiv (vecMat ⟨-1, -1, -1, 1⟩
        (perspectiveProjectionMatrix (-1) 1 (-1) 1 1 10)) =
      (⟨-1, -1, -1, 1⟩ : Vec4 ℚ) :=
  ⟨by decide, by decide, by decide, by decide,
   (perspective_maps_near_corners (-1) 1 (-1) 1 1 10 (by decide)
     (by decide) (by decide) (by decide)).1⟩

/-- C7: for all inputs with `r ≠ l`, `t ≠ b`, `f ≠ n`, the matrix returned
by `perspectiveProjectionMatrix` has its perspective-divide element
(entry `[2][3]`, the w-column entry fed by view-space z) equal to `-1`,
while the matrix returned by `orthoProjectionMatrix` has that element
equal to `0` and its homogeneous term (entry `[3][3]`) equal to `1`. -/
theorem projection_divide_elements {K : Type} [Field K]
    (l r b t n f : K) (hrl : r ≠ l) (htb : t ≠ b) (hfn : f ≠ n) :
    (perspectiveProjectionMatrix l r b t n f).m23 = -1 ∧
    (orthoProjectionMatrix l r b t n f).m23 = 0 ∧
    (orthoProjectionMatrix l r b t n f).m33 = 1 :=
  ⟨rfl, rfl, rfl⟩

/-- C7 witness: the divide-element invariant at the concrete frustum
`(-1, 1, -1, 1, 1, 10)` over `ℚ`. -/
theorem projection_divide_elements_witness :
    ((1 : ℚ) ≠ -1) ∧ ((1 : ℚ) ≠ -1) ∧ ((10 : ℚ) ≠ 1) ∧
    ((perspectiveProjectionMatrix (-1 : ℚ) 1 (-1) 1 1 10).m23 = -1 ∧
     (orthoProjectionMatrix (-1 : ℚ) 1 (-1) 1 1 10).m23 = 0 ∧
     (orthoProjectionMatrix (-1 : ℚ) 1 (-1) 1 1 10).m33 = 1) :=
  ⟨by decide, by decide, by decide,
   projection_divide_elements (-1) 1 (-1) 1 1 10 (by decide) (by decide)
     (by decide)⟩

/-- C5: for all screen parameters with `convergeOffset + scrDist ≠ 0` and
`scrAspect ≠ 0`, `computeFrustum` called with `eyeOffset = e` and with
`eyeOffset = -e` returns mirror-image frustums
(`left_e = -right_{-e}` and `right_e = -left_{-e}`); in particular with
`e = 0` the frustum is symmetric, `left = -right`. -/
theorem computeFrustum_mirror {K : Type} [Field K]
    (scrWidth scrAspect scrDist convergeOffset eyeOffset nearClip
      farClip : K)
    (h1 : convergeOffset + scrDist ≠ 0) (h2 : scrAspect ≠ 0) :
    (computeFrustum scrWidth scrAspect scrDist convergeOffset eyeOffset
        nearClip farClip).left =
      -(computeFrustum scrWidth scrAspect scrDist convergeOffset
        (-eyeOffset) nearClip farClip).right ∧
    (computeFrustum scrWidth scrAspect scrDist convergeOffset eyeOffset
        nearClip farClip).right =
      -(computeFrustum scrWidth scrAspect scrDist convergeOffset
        (-eyeOffset) nearClip farClip).left ∧
    (computeFrustum scrWidth scrAspect scrDist convergeOffset 0
        nearClip farClip).left =
      -(computeFrustum scrWidth scrAspect scrDist convergeOffset 0
        nearClip farClip).right := by
  refine ⟨?_, ?_, ?_⟩ <;>
  · simp only [computeFrustum]
    ring

/-- C5 witness: the mirror identities at the concrete parameters
`scrWidth = 1`, `scrAspect = 1`, `scrDist = 1`, `convergeOffset = 0`,
`eyeOffset = 2`, `nearClip = 1`, `farClip = 10` over `ℚ`. -/
theorem computeFrustum_mirror_witness :
    ((0 : ℚ) + 1 ≠ 0) ∧ ((1 : ℚ) ≠ 0) ∧
    ((computeFrustum (1 : ℚ) 1 1 0 2 1 10).left =
      -(computeFrustum (1 : ℚ) 1 1 0 (-2) 1 10).right ∧
     (computeFrustum (1 : ℚ) 1 1 0 2 1 10).right =
      -(computeFrustum (1 : ℚ) 1 1 0 (-2) 1 10).left ∧
     (computeFrustum (1 : ℚ) 1 1 0 0 1 10).left =
      -(computeFrustum (1 : ℚ) 1 1 0 0 1 10).right) :=
  ⟨by norm_num, by norm_num,
   computeFrustum_mirror 1 1 1 0 2 1 10 (by norm_num) (by norm_num)⟩

/-- C10: with `eyeOffset = 0` and `convergeOffset = 0`, the `left` and
`right` fields returned by `computeFrustum` do not depend on `scrDist`:
for any two non-zero screen distances (all other arguments equal) the
returned `left` and `right` are identical, namely
`right = scrWidth * nearClip` and `left = -(scrWidth * nearClip)`, because
the `(convergeOffset + scrDist)` factor cancels between `d` and `ratio`. -/
theorem computeFrustum_left_right_dist_independent {K : Type} [Field K]
    (scrWidth scrAspect scrDistA scrDistB nearClip farClip : K)
    (hA : scrDistA ≠ 0) (hB : scrDistB ≠ 0) :
    (computeFrustum scrWidth scrAspect scrDistA 0 0 nearClip
        farClip).right = scrWidth * nearClip ∧
    (computeFrustum scrWidth scrAspect scrDistA 0 0 nearClip
        farClip).left = -(scrWidth * nearClip) ∧
    (computeFrustum scrWidth scrAspect scrDistA 0 0 nearClip
        farClip).right =
      (computeFrustum scrWidth scrAspect scrDistB 0 0 nearClip
        farClip).right ∧
    (computeFrustum scrWidth scrAspect scrDistA 0 0 nearClip
        farClip).left =
      (computeFrustum scrWidth scrAspect scrDistB 0 0 nearClip
        farClip).left := by
  have key : ∀ s : K, s ≠ 0 →
      (computeFrustum scrWidth scrAspect s 0 0 nearClip farClip).right =
        scrWidth * nearClip ∧
      (computeFrustum scrWidth scrAspect s 0 0 nearClip farClip).left =
        -(scrWidth * nearClip) := by
    intro s hs
    constructor <;>
    · simp only [computeFrustum]
      field_simp
      try ring
  refine ⟨(key scrDistA hA).1, (key scrDistA hA).2, ?_, ?_⟩
  · rw [(key scrDistA hA).1, (key scrDistB hB).1]
  · rw [(key scrDistA hA).2, (key scrDistB hB).2]

/-- C10 witness: at `scrWidth = 2`, `scrAspect = 1`, the two distances
`3` and `5`, `nearClip = 1`, `farClip = 10` over `ℚ`, the frustum's
`right` is `2 * 1` and `left` is `-(2 * 1)` at both distances. -/
theorem computeFrustum_left_right_dist_independent_witness :
    ((3 : ℚ) ≠ 0) ∧ ((5 : ℚ) ≠ 0) ∧
    ((computeFrustum (2 : ℚ) 1 3 0 0 1 10).right = 2 * 1 ∧
     (computeFrustum (2 : ℚ) 1 3 0 0 1 10).left = -(2 * 1) ∧
     (computeFrustum (2 : ℚ) 1 3 0 0 1 10).right =
       (computeFrustum (2 : ℚ) 1 5 0 0 1 10).right ∧
     (computeFrustum (2 : ℚ) 1 3 0 0 1 10).left =
       (computeFrustum (2 : ℚ) 1 5 0 0 1 10).left) :=
  ⟨by decide, by decide,
   computeFrustum_left_right_dist_independent 2 1 3 5 1 10 (by decide)
     (by decide)⟩

/-- C2 (evaluation of the code at the failing input): with
`l = 0, r = 2, b = 0, t = 2, near = 1, far = 10`, the matrix returned by
`orthoProjectionMatrix`, applied by row-vector pre-multiplication to the
point `(l, b, -near, 1) = (0, 0, -1, 1)`, yields clip-space x-coordinate
`1`, not the `-1` the claim requires: the translation row of the source's
ortho matrix carries `+(r+l)/(r-l)` (and likewise for y and z) where the
glOrtho convention requires `-(r+l)/(r-l)`, so only symmetric frustums
(`r = -l`, `t = -b`) map the corners correctly. -/
theorem ortho_translation_sign_flipped :
    (vecMat ⟨0, 0, -1, 1⟩ (orthoProjectionMatrix (0 : ℚ) 2 0 2 1 10)).x
      = 1 ∧ ((1 : ℚ) ≠ -1) := by
  constructor
  · norm_num [vecMat, orthoProjectionMatrix]
  · norm_num

/-- C3 (evaluation of the two derivation paths at a centred,
perpendicular configuration): for a screen of width 1, aspect 1, centred
at `(0, 0, -1)` in the plane `z = -1`, viewed from the eye at the origin
along the screen normal, with `nearClip = 1`, `farClip = 10`, the frustum
`generalPerspectiveProjection` derives is symmetric with
`right = 1/2 = -left`, while `computeFrustum` for the equivalent geometry
(`scrWidth = 1`, `scrAspect = 1`, `scrDist = 1`, offsets 0, same clips)
returns `right = 1`: the two paths disagree (`computeFrustum`'s
`d = scrWidth * (convergeOffset + scrDist)` is the full width scaled by
the viewing distance rather than the half width, so its bounds are
`2 * scrDist` times the Kooima-derived ones). -/
theorem genPersp_computeFrustum_disagree :
    (generalPerspectiveFrustum ⟨-(1 / 2), -(1 / 2), -1⟩
        ⟨1 / 2, -(1 / 2), -1⟩ ⟨-(1 / 2), 1 / 2, -1⟩ ⟨0, 0, 0⟩ 1 10).right
      = 1 / 2 ∧
    (generalPerspectiveFrustum ⟨-(1 / 2), -(1 / 2), -1⟩
        ⟨1 / 2, -(1 / 2), -1⟩ ⟨-(1 / 2), 1 / 2, -1⟩ ⟨0, 0, 0⟩ 1 10).left
      = -(1 / 2) ∧
    (computeFrustum (1 : ℝ) 1 1 0 0 1 10).right = 1 ∧
    ((1 : ℝ) / 2 ≠ 1) := by
  refine ⟨?_, ?_, ?_, ?_⟩
  · norm_num [generalPerspectiveFrustum, normalize3, norm3, sub3, cross3,
      dot3, Real.sqrt_one]
  · norm_num [generalPerspectiveFrustum, normalize3, norm3, sub3, cross3,
      dot3, Real.sqrt_one]
  · norm_num [computeFrustum]
  · norm_num

/-- C4 (evaluation of the code at the failing input): for
`eyePos = (0, 0, 0)`, `centerPos = (0, 0, -1)`, `upVec = (0, 1, 1)` (not
parallel to the view direction), the first column of the rotation block
of the matrix returned by `lookAt` has squared norm `1/2`, not `1`: the
source places the unnormalised side vector `s = cross(f, upVec)` (of
length `sin θ` for the angle `θ` between view direction and up vector)
into the matrix, whereas gluLookAt — the algorithm the source's
documentation cites — normalises `s` first, so the rotation block is not
orthonormal and the result is not a rigid-body transform. -/
theorem lookAt_rotation_not_orthonormal :
    (lookAt ⟨0, 0, 0⟩ ⟨0, 0, -1⟩ ⟨0, 1, 1⟩).m00 *
        (lookAt ⟨0, 0, 0⟩ ⟨0, 0, -1⟩ ⟨0, 1, 1⟩).m00 +
      (lookAt ⟨0, 0, 0⟩ ⟨0, 0, -1⟩ ⟨0, 1, 1⟩).m10 *
        (lookAt ⟨0, 0, 0⟩ ⟨0, 0, -1⟩ ⟨0, 1, 1⟩).m10 +
      (lookAt ⟨0, 0, 0⟩ ⟨0, 0, -1⟩ ⟨0, 1, 1⟩).m20 *
        (lookAt ⟨0, 0, 0⟩ ⟨0, 0, -1⟩ ⟨0, 1, 1⟩).m20 = 1 / 2 ∧
    ((1 : ℝ) / 2 ≠ 1) := by
  have hs2 : Real.sqrt 2 * Real.sqrt 2 = 2 :=
    Real.mul_self_sqrt (by norm_num)
  have hs2' : Real.sqrt 2 ≠ 0 :=
    ne_of_gt (Real.sqrt_pos.mpr (by norm_num))
  constructor
  · simp only [lookAt, matMul, normalize3, norm3, cross3, sub3, dot3]
    norm_num [Real.sqrt_one]
    field_simp
    try rw [hs2]
    try norm_num
  · norm_num

/-- C8: `lookAt` with `eyePos = (0, 0, 5)`, `centerPos = (0, 0, 0)`,
`upVec = (0, 1, 0)` returns the matrix whose 3x3 rotation block is the
identity (x and y axes unchanged, forward axis `-z`) and whose
translation row equals `(0, 0, -5)`. -/
theorem lookAt_aligned_identity :
    lookAt ⟨0, 0, 5⟩ ⟨0, 0, 0⟩ ⟨0, 1, 0⟩ =
      ⟨1, 0, 0, 0,
       0, 1, 0, 0,
       0, 0, 1, 0,
       0, 0, -5, 1⟩ := by
  have h25 : Real.sqrt 25 = 5 := by
    rw [show (25 : ℝ) = 5 ^ 2 by norm_num]
    exact Real.sqrt_sq (by norm_num)
  simp only [lookAt, matMul, normalize3, norm3, cross3, sub3, dot3,
    Mat4.mk.injEq]
  norm_num [h25, Real.sqrt_one]
